import Mathlib

/-!
Verification of the match-simulation core of the `commenters-fight`
repository (a last-player-standing arena game): collision resolution
(`CollisionManager.ts`), grace-period / winner state
(`GameStateManager.ts`), respawn policy (`RespawnManager.ts`),
progressive speed scaling (`SpeedManager.ts`) and the player roster
(`PlayerManager`).  Times are wall-clock milliseconds modelled as `Nat`
(JavaScript `now - t < c` and truncated `Nat` subtraction agree on every
branch taken here); positions, velocities and speed multipliers are
modelled as `ℚ`.
-/

namespace CommentersFight

/-- An agent snapshot: the fields of a Phaser arcade image that the
collision logic reads (`playerName`, `y`, `height`, body velocity) plus
the `lastCollision` data attachment. -/
structure Player where
  name : String
  y : ℚ
  height : ℚ
  velX : ℚ
  velY : ℚ
  lastCollision : ℕ
  deriving Repr, DecidableEq

/-- Model of `GameStateManager.isGracePeriodActive`: true while less than 3000 ms
have elapsed since `gameStartTime`. -/
def isGracePeriodActive (gameStartTime now : ℕ) : Bool :=
  now - gameStartTime < 3000

/-- Model of `CollisionManager.determineCollisionWinner`: compares top edges
(`y - height/2`) with a 10 px vertical threshold.  Returns
`some (winnerName, loserName)`, or `none` for a side collision. -/
def determineCollisionWinner (player1 player2 : Player) :
    Option (String × String) :=
  let player1Top := player1.y - player1.height / 2
  let player2Top := player2.y - player2.height / 2
  let verticalThreshold : ℚ := 10
  if player1Top < player2Top - verticalThreshold then
    some (player1.name, player2.name)
  else if player2Top < player1Top - verticalThreshold then
    some (player2.name, player1.name)
  else
    none

/-- Model of `CollisionManager.handlePlayerCollision`.  Returns the two updated
player snapshots and `some (winnerName, loserName)` when an elimination
is reported through `onPlayerEliminated`, `none` otherwise.  Mirrors the
source order: name guard, 500 ms cooldown check on `player1`, cooldown
write on both, grace-period bounce (× 0.8), stomp resolution, winner
impulse `velocityY = -150` (winner box chosen by name comparison with
`player1`), side bounce (× 1.2). -/
def handlePlayerCollision (player1 player2 : Player)
    (gracePeriodActive : Bool) (currentTime : ℕ) :
    Player × Player × Option (String × String) :=
  if player1.name = "" ∨ player2.name = "" then (player1, player2, none)
  else if currentTime - player1.lastCollision < 500 then
    (player1, player2, none)
  else
    let p1 := { player1 with lastCollision := currentTime }
    let p2 := { player2 with lastCollision := currentTime }
    if gracePeriodActive then
      ({ p1 with velX := -p1.velX * (8 / 10) },
       { p2 with velX := -p2.velX * (8 / 10) }, none)
    else
      match determineCollisionWinner p1 p2 with
      | some (winner, loser) =>
          if winner = p1.name then
            ({ p1 with velY := -150 }, p2, some (winner, loser))
          else
            (p1, { p2 with velY := -150 }, some (winner, loser))
      | none =>
          ({ p1 with velX := -p1.velX * (12 / 10) },
           { p2 with velX := -p2.velX * (12 / 10) }, none)

/-- Reading `Map.get(name) ?? 0` on the score map (association list preserving
insertion order, as a JavaScript `Map` does). -/
def mapGet (m : List (String × ℕ)) (k : String) : ℕ :=
  match m.find? (fun e => e.1 = k) with
  | some e => e.2
  | none => 0

/-- Writing `Map.set(name, v)`: update in place when the key exists, otherwise
append a fresh entry. -/
def mapSet (m : List (String × ℕ)) (k : String) (v : ℕ) :
    List (String × ℕ) :=
  if m.any (fun e => e.1 = k) then
    m.map (fun e => if e.1 = k then (k, v) else e)
  else m ++ [(k, v)]

/-- Model of `GameStateManager.updatePlayerScore`. -/
def updatePlayerScore (m : List (String × ℕ)) (name : String)
    (points : ℕ) : List (String × ℕ) :=
  mapSet m name (mapGet m name + points)

/-- The arena-level state the collider callback in `Game.create`
touches: the score map, the set of active agent names, and the alive
name-text resources (keyed by agent name). -/
structure ArenaState where
  scores : List (String × ℕ)
  active : List String
  texts : List String
  deriving Repr, DecidableEq

/-- Effect of the `Game.create` collider callback for an outcome of
`handlePlayerCollision`: on elimination, `updatePlayerScore(winner, 1)`
then `PlayerManager.removePlayer(loser)` (destroy the name text, remove
the agent from the group); otherwise nothing. -/
def applyOutcome (st : ArenaState) (out : Option (String × String)) :
    ArenaState :=
  match out with
  | none => st
  | some (winner, loser) =>
      { scores := updatePlayerScore st.scores winner 1,
        active := st.active.erase loser,
        texts := st.texts.erase loser }

/-- Model of `GameStateManager.shouldRespawnAfterWinner`: false until a winner is
announced, then true once 3000 ms have elapsed since the announcement. -/
def shouldRespawnAfterWinner (winnerAnnounced : Bool)
    (winnerAnnounceTime now : ℕ) : Bool :=
  if ¬winnerAnnounced then false
  else 3000 ≤ now - winnerAnnounceTime

/-- Observable action of one `RespawnManager.checkAndRespawnPlayers`
call: announce the winner, respawn `n` players, keep waiting for the
3-second window, log the single-player case, or do nothing. -/
inductive RespawnAction where
  | announceWinner
  | respawn (n : ℕ)
  | waiting
  | singlePlayerContinue
  | noAction
  deriving Repr, DecidableEq

/-- Model of `RespawnManager.checkAndRespawnPlayers`, with the two
`GameStateManager` queries it makes inlined from their state
(`winnerAnnounced`, `winnerAnnounceTime`, `now`). -/
def checkAndRespawnPlayers (activePlayers totalAvailablePlayers : ℕ)
    (winnerAnnounced : Bool) (winnerAnnounceTime now : ℕ) :
    RespawnAction :=
  if activePlayers ≤ 1 ∧ 1 < totalAvailablePlayers then
    if ¬winnerAnnounced then .announceWinner
    else if shouldRespawnAfterWinner winnerAnnounced winnerAnnounceTime now
    then .respawn (totalAvailablePlayers - activePlayers)
    else .waiting
  else if activePlayers ≤ 1 ∧ totalAvailablePlayers = 1 then
    .singlePlayerContinue
  else .noAction

/-- Model of `Phaser.Math.RND.pick` on a list, driven by an index into the list
(the randomness source): an arbitrary in-range choice. -/
def pickFrom (l : List String) (idx : ℕ) : String :=
  l.getD (idx % l.length) ""

/-- Model of `PlayerManager.spawnRandomPlayer`: filter the roster down to names
not currently active; if none remain, do nothing; otherwise pick one and
create that player (adding its name to the active set). -/
def spawnRandomPlayer (roster active : List String) (idx : ℕ) :
    List String :=
  let availableNames := roster.filter (fun n => ¬ active.contains n)
  if availableNames.isEmpty then active
  else active ++ [pickFrom availableNames idx]

/-- The respawn loop in `checkAndRespawnPlayers`: call
`spawnRandomPlayer` once per element of the random-choice list. -/
def spawnLoop (roster active : List String) (idxs : List ℕ) :
    List String :=
  idxs.foldl (fun act i => spawnRandomPlayer roster act i) active

/-- The private fields of `SpeedManager`. -/
structure SpeedState where
  speedBoostLogged : Bool
  progressiveSpeedMultiplier : ℚ
  lastProgressiveBoostTime : ℕ
  progressiveBoostCount : ℕ
  deriving Repr, DecidableEq

/-- The `SpeedManager` initial state, also what `reset()` produces. -/
def SpeedState.init : SpeedState :=
  { speedBoostLogged := false, progressiveSpeedMultiplier := 1,
    lastProgressiveBoostTime := 0, progressiveBoostCount := 0 }

/-- Model of `SpeedManager.calculateSpeedMultiplier`: base 1.5 below 8 active
players else 1.0; latch the boost on first activation, reset on
deactivation; while boosted, every observed 10000 ms add 0.25 to the
progressive multiplier up to 8 increments.  Returns the multiplier and
the updated state. -/
def calculateSpeedMultiplier (s : SpeedState) (activePlayers now : ℕ) :
    ℚ × SpeedState :=
  let baseSpeedMultiplier : ℚ := if activePlayers < 8 then 3 / 2 else 1
  let s1 :=
    if activePlayers < 8 ∧ 1 < baseSpeedMultiplier ∧ ¬s.speedBoostLogged
    then
      { speedBoostLogged := true, progressiveSpeedMultiplier := 1,
        progressiveBoostCount := 0, lastProgressiveBoostTime := now }
    else if 8 ≤ activePlayers ∧ s.speedBoostLogged then SpeedState.init
    else s
  let s2 :=
    if s1.speedBoostLogged ∧ s1.progressiveBoostCount < 8 ∧
        10000 ≤ now - s1.lastProgressiveBoostTime then
      { s1 with
        progressiveBoostCount := s1.progressiveBoostCount + 1,
        progressiveSpeedMultiplier :=
          s1.progressiveSpeedMultiplier + 1 / 4,
        lastProgressiveBoostTime := now }
    else s1
  (baseSpeedMultiplier * s2.progressiveSpeedMultiplier, s2)

/-- Run `calculateSpeedMultiplier` over a tick schedule of
`(activePlayers, now)` pairs, keeping the last returned multiplier. -/
def runSpeed (s : SpeedState) (ticks : List (ℕ × ℕ)) : ℚ × SpeedState :=
  ticks.foldl (fun acc t => calculateSpeedMultiplier acc.2 t.1 t.2)
    (1 * s.progressiveSpeedMultiplier, s)

/-- JavaScript `Set.add`: append unless already present (a JS `Set`
iterates in insertion order). -/
def setAdd (l : List String) (s : String) : List String :=
  if s ∈ l then l else l ++ [s]

/-- Model of `PlayerManager.getPlayerNames`: start the set with `"ElodineCodes"`,
then add each fetched name after trimming, dropping names that are empty
after the trim. -/
def getPlayerNames (youtubeNames : List String) : List String :=
  youtubeNames.foldl
    (fun acc name =>
      let cleanName := name.trim
      if cleanName = "" then acc else setAdd acc cleanName)
    ["ElodineCodes"]

/-- Keep the first occurrence of every element, in first-seen order (the
order a JS `Set` built by repeated `add` iterates in). -/
def firstSeenDedup : List String → List String
  | [] => []
  | s :: rest => s :: firstSeenDedup (rest.filter (fun x => x ≠ s))
termination_by l => l.length
decreasing_by
  simp only [List.length_cons]
  exact Nat.lt_succ_of_le (List.length_filter_le _ _)

/-- The valid fetched names: trimmed, non-empty, with occurrences of the
fallback name removed (the fallback is contributed separately, first). -/
def cleanFetchedNames (youtubeNames : List String) : List String :=
  (youtubeNames.map String.trim).filter
    (fun s => s ≠ "" ∧ s ≠ "ElodineCodes")

/-- Model of `PlayerManager.createPlayers`: spawn `min(len, 12)` players, taking
`availableNames[i]` for `i = 0 … numBoxes-1`; returns the spawned names
in spawn order. -/
def createPlayers (availableNames : List String) : List String :=
  (List.range (min availableNames.length 12)).map
    (fun i => availableNames.getD i "")

/-! ## General lemmas about the collision resolver -/

/-- A contact delivered while the 500 ms cooldown of `player1` is still
running is ignored: nothing changes and no elimination is reported. -/
lemma handle_cooldown_ignored (p1 p2 : Player) (g : Bool) (t : ℕ)
    (h : t - p1.lastCollision < 500) :
    handlePlayerCollision p1 p2 g t = (p1, p2, none) := by
  unfold handlePlayerCollision
  split
  · rfl
  · rfl

/-- Every processed contact stamps the current time into both agents'
`lastCollision` attachments, whatever branch resolves it. -/
lemma handle_sets_cooldowns (p1 p2 : Player) (g : Bool) (now : ℕ)
    (hn : ¬(p1.name = "" ∨ p2.name = ""))
    (hcool : ¬ now - p1.lastCollision < 500) :
    (handlePlayerCollision p1 p2 g now).1.lastCollision = now ∧
    (handlePlayerCollision p1 p2 g now).2.1.lastCollision = now := by
  unfold handlePlayerCollision
  rw [if_neg hn, if_neg hcool]
  dsimp only
  split
  · exact ⟨rfl, rfl⟩
  · split
    · split
      · exact ⟨rfl, rfl⟩
      · exact ⟨rfl, rfl⟩
    · exact ⟨rfl, rfl⟩

/-! ## C1, C3, C10: grace period and cooldown -/

/-- C1.  Every contact processed while the grace period is active
(`now - roundStart < 3000` ms) and past the 500 ms cooldown eliminates
neither agent and awards no score: both agents keep every field except
that their horizontal velocities are reversed and dampened by 0.8 and
their cooldown stamps are refreshed, and the reported outcome is `none`,
which leaves scores, active set and text resources untouched. -/
theorem grace_collision_only_bounces
    (p1 p2 : Player) (gameStartTime now : ℕ) (st : ArenaState)
    (h1 : p1.name ≠ "") (h2 : p2.name ≠ "")
    (hgrace : now - gameStartTime < 3000)
    (hcool : ¬ now - p1.lastCollision < 500) :
    handlePlayerCollision p1 p2 (isGracePeriodActive gameStartTime now)
        now =
      ({ p1 with lastCollision := now, velX := -p1.velX * (8 / 10) },
       { p2 with lastCollision := now, velX := -p2.velX * (8 / 10) },
       none) ∧
    applyOutcome st none = st := by
  refine ⟨?_, rfl⟩
  unfold handlePlayerCollision isGracePeriodActive
  rw [if_neg (by simp [h1, h2]), if_neg hcool, if_pos (by simpa using hgrace)]

/-- C3.  After a contact is processed at `t0` (both cooldown stamps set
to `t0`), a second contact between the same two agents at any `t` with
`t - t0 < 500` ms is fully ignored in either argument order: the agents
are returned unchanged, no elimination is reported, and the arena state
(scores, active set, texts) is untouched. -/
theorem second_contact_within_cooldown_ignored
    (p1 p2 : Player) (t0 t : ℕ) (g : Bool) (st : ArenaState)
    (hp1 : p1.lastCollision = t0) (hp2 : p2.lastCollision = t0)
    (ht : t - t0 < 500) :
    handlePlayerCollision p1 p2 g t = (p1, p2, none) ∧
    handlePlayerCollision p2 p1 g t = (p2, p1, none) ∧
    applyOutcome st none = st :=
  ⟨handle_cooldown_ignored p1 p2 g t (by rw [hp1]; exact ht),
   handle_cooldown_ignored p2 p1 g t (by rw [hp2]; exact ht), rfl⟩

/-- C10.  Every processed contact — grace bounce, side bounce or
elimination alike — sets both agents' cooldown stamps to the current
time, and consequently any follow-up contact between the same pair
within the next 500 ms, in either argument order, is ignored by the
resolver. -/
theorem processed_contact_stamps_both_cooldowns
    (p1 p2 : Player) (g : Bool) (now : ℕ)
    (h1 : p1.name ≠ "") (h2 : p2.name ≠ "")
    (hcool : ¬ now - p1.lastCollision < 500) :
    ((handlePlayerCollision p1 p2 g now).1.lastCollision = now ∧
     (handlePlayerCollision p1 p2 g now).2.1.lastCollision = now) ∧
    ∀ (g' : Bool) (t : ℕ), t - now < 500 →
      handlePlayerCollision (handlePlayerCollision p1 p2 g now).1
          (handlePlayerCollision p1 p2 g now).2.1 g' t =
        ((handlePlayerCollision p1 p2 g now).1,
         (handlePlayerCollision p1 p2 g now).2.1, none) ∧
      handlePlayerCollision (handlePlayerCollision p1 p2 g now).2.1
          (handlePlayerCollision p1 p2 g now).1 g' t =
        ((handlePlayerCollision p1 p2 g now).2.1,
         (handlePlayerCollision p1 p2 g now).1, none) := by
  have hset := handle_sets_cooldowns p1 p2 g now (by simp [h1, h2]) hcool
  refine ⟨hset, fun g' t ht => ⟨?_, ?_⟩⟩
  · exact handle_cooldown_ignored _ _ g' t (by rw [hset.1]; exact ht)
  · exact handle_cooldown_ignored _ _ g' t (by rw [hset.2]; exact ht)

/-! ## C5: a single-name roster never ends the round -/

/-- C5.  When the roster has exactly one name, a respawn check never
announces a winner and never respawns, whatever the active count, the
announcement flag or the clock — the round simply continues. -/
theorem single_roster_never_announces
    (activePlayers : ℕ) (winnerAnnounced : Bool)
    (winnerAnnounceTime now : ℕ) :
    checkAndRespawnPlayers activePlayers 1 winnerAnnounced
        winnerAnnounceTime now ≠ RespawnAction.announceWinner ∧
    ∀ n, checkAndRespawnPlayers activePlayers 1 winnerAnnounced
        winnerAnnounceTime now ≠ RespawnAction.respawn n := by
  constructor
  · unfold checkAndRespawnPlayers
    rw [if_neg (by omega)]
    split <;> simp
  · intro n
    unfold checkAndRespawnPlayers
    rw [if_neg (by omega)]
    split <;> simp

/-- A concrete agent used to exercise the theorems. -/
def pA : Player := ⟨"A", 100, 20, 30, 5, 0⟩

/-- A second concrete agent, 30 px lower than `pA`. -/
def pB : Player := ⟨"B", 130, 20, -40, 2, 0⟩

/-- A concrete arena state used to exercise the theorems. -/
def stDemo : ArenaState :=
  ⟨[("A", 0), ("B", 0)], ["A", "B"], ["A", "B"]⟩

/-- Witness for C1 at a concrete grace-period contact. -/
theorem grace_collision_only_bounces_witness :
    (pA.name ≠ "" ∧ pB.name ≠ "" ∧ 1000 - 0 < 3000 ∧
      ¬ 1000 - pA.lastCollision < 500) ∧
    (handlePlayerCollision pA pB (isGracePeriodActive 0 1000) 1000 =
      ({ pA with lastCollision := 1000, velX := -pA.velX * (8 / 10) },
       { pB with lastCollision := 1000, velX := -pB.velX * (8 / 10) },
       none) ∧
     applyOutcome stDemo none = stDemo) :=
  ⟨by decide,
   grace_collision_only_bounces pA pB 0 1000 stDemo (by decide) (by decide)
     (by decide) (by decide)⟩

/-- Witness for C3 at a concrete repeated contact 400 ms after the
first. -/
theorem second_contact_within_cooldown_ignored_witness :
    (pA.lastCollision = 0 ∧ pB.lastCollision = 0 ∧ 400 - 0 < 500) ∧
    (handlePlayerCollision pA pB true 400 = (pA, pB, none) ∧
     handlePlayerCollision pB pA true 400 = (pB, pA, none) ∧
     applyOutcome stDemo none = stDemo) :=
  ⟨by decide,
   second_contact_within_cooldown_ignored pA pB 0 400 true stDemo rfl rfl
     (by decide)⟩

/-- Witness for C10 at a concrete contact followed 200 ms later by a
second one. -/
theorem processed_contact_stamps_both_cooldowns_witness :
    (pA.name ≠ "" ∧ pB.name ≠ "" ∧ ¬ 1000 - pA.lastCollision < 500 ∧
      1200 - 1000 < 500) ∧
    ((handlePlayerCollision pA pB false 1000).1.lastCollision = 1000 ∧
     (handlePlayerCollision pA pB false 1000).2.1.lastCollision = 1000) ∧
    (handlePlayerCollision (handlePlayerCollision pA pB false 1000).1
        (handlePlayerCollision pA pB false 1000).2.1 true 1200 =
      ((handlePlayerCollision pA pB false 1000).1,
       (handlePlayerCollision pA pB false 1000).2.1, none) ∧
     handlePlayerCollision (handlePlayerCollision pA pB false 1000).2.1
        (handlePlayerCollision pA pB false 1000).1 true 1200 =
      ((handlePlayerCollision pA pB false 1000).2.1,
       (handlePlayerCollision pA pB false 1000).1, none)) :=
  ⟨by decide,
   (processed_contact_stamps_both_cooldowns pA pB false 1000 (by decide)
       (by decide) (by decide)).1,
   (processed_contact_stamps_both_cooldowns pA pB false 1000 (by decide)
       (by decide) (by decide)).2 true 1200 (by decide)⟩

/-! ## C2: the vertical-stomp rule -/

/-- C2.  With the grace period inactive and the cooldown passed, the
stomp rule with its 10 px threshold decides the contact: an agent whose
top edge is more than 10 px above the other's wins and the other is
eliminated; when the top edges are within 10 px, nobody is eliminated
and both horizontal velocities are reversed and scaled by 1.2; an agent
exactly 11 px above the other always wins. -/
theorem stomp_rule_decides_outcome
    (p1 p2 : Player) (now : ℕ) (h1 : p1.name ≠ "") (h2 : p2.name ≠ "")
    (hd : p1.name ≠ p2.name) (hcool : ¬ now - p1.lastCollision < 500) :
    (p1.y - p1.height / 2 < p2.y - p2.height / 2 - 10 →
      handlePlayerCollision p1 p2 false now =
        ({ p1 with lastCollision := now, velY := -150 },
         { p2 with lastCollision := now }, some (p1.name, p2.name))) ∧
    (p2.y - p2.height / 2 < p1.y - p1.height / 2 - 10 →
      handlePlayerCollision p1 p2 false now =
        ({ p1 with lastCollision := now },
         { p2 with lastCollision := now, velY := -150 },
         some (p2.name, p1.name))) ∧
    (¬ p1.y - p1.height / 2 < p2.y - p2.height / 2 - 10 →
     ¬ p2.y - p2.height / 2 < p1.y - p1.height / 2 - 10 →
      handlePlayerCollision p1 p2 false now =
        ({ p1 with lastCollision := now, velX := -p1.velX * (12 / 10) },
         { p2 with lastCollision := now, velX := -p2.velX * (12 / 10) },
         none)) ∧
    (p1.y - p1.height / 2 = p2.y - p2.height / 2 - 11 →
      (handlePlayerCollision p1 p2 false now).2.2 =
        some (p1.name, p2.name)) := by
  have hne : ¬(p1.name = "" ∨ p2.name = "") := by simp [h1, h2]
  have key1 : p1.y - p1.height / 2 < p2.y - p2.height / 2 - 10 →
      handlePlayerCollision p1 p2 false now =
        ({ p1 with lastCollision := now, velY := -150 },
         { p2 with lastCollision := now }, some (p1.name, p2.name)) := by
    intro hlt
    unfold handlePlayerCollision determineCollisionWinner
    rw [if_neg hne, if_neg hcool]
    dsimp only
    rw [if_neg Bool.false_ne_true, if_pos hlt]
    dsimp only
    rw [if_pos rfl]
  refine ⟨key1, fun hlt => ?_, fun hge1 hge2 => ?_, fun heq => ?_⟩
  · unfold handlePlayerCollision determineCollisionWinner
    rw [if_neg hne, if_neg hcool]
    dsimp only
    rw [if_neg Bool.false_ne_true, if_neg (by linarith), if_pos hlt]
    dsimp only
    rw [if_neg fun h => hd h.symm]
  · unfold handlePlayerCollision determineCollisionWinner
    rw [if_neg hne, if_neg hcool]
    dsimp only
    rw [if_neg Bool.false_ne_true, if_neg hge1, if_neg hge2]
  · rw [key1 (by linarith)]

/-- Witness for C2: a concrete stomp (30 px above), a concrete side
collision, and a concrete 11-px advantage. -/
theorem stomp_rule_decides_outcome_witness :
    (pA.name ≠ "" ∧ pB.name ≠ "" ∧ pA.name ≠ pB.name ∧
      ¬ 1000 - pA.lastCollision < 500 ∧
      pA.y - pA.height / 2 < pB.y - pB.height / 2 - 10) ∧
    handlePlayerCollision pA pB false 1000 =
      ({ pA with lastCollision := 1000, velY := -150 },
       { pB with lastCollision := 1000 }, some (pA.name, pB.name)) :=
  ⟨⟨by decide, by decide, by decide, by decide, by norm_num [pA, pB]⟩,
   (stomp_rule_decides_outcome pA pB 1000 (by decide) (by decide)
       (by decide) (by decide)).1 (by norm_num [pA, pB])⟩

/-! ## Score-map lemmas -/

/-- Unfolding of `mapGet` on a cons cell. -/
lemma mapGet_cons (e : String × ℕ) (m : List (String × ℕ)) (k : String) :
    mapGet (e :: m) k = if e.1 = k then e.2 else mapGet m k := by
  unfold mapGet
  rcases eq_or_ne e.1 k with h | h
  · rw [List.find?_cons_of_pos _ (by simpa using h), if_pos h]
  · rw [List.find?_cons_of_neg _ (by simpa using h), if_neg h]

/-- Updating an existing key in place writes the value read back at that
key. -/
lemma mapGet_update_of_mem (m : List (String × ℕ)) (k : String) (v : ℕ)
    (h : ∃ e ∈ m, e.1 = k) :
    mapGet (m.map (fun e => if e.1 = k then (k, v) else e)) k = v := by
  induction m with
  | nil => obtain ⟨e, he, _⟩ := h; cases he
  | cons x rest ih =>
    rw [List.map_cons]
    rcases eq_or_ne x.1 k with hx | hx
    · rw [if_pos hx, mapGet_cons]
      simp
    · rw [if_neg hx, mapGet_cons, if_neg hx]
      apply ih
      obtain ⟨e, he, hek⟩ := h
      rcases List.mem_cons.mp he with rfl | he'
      · exact absurd hek hx
      · exact ⟨e, he', hek⟩

/-- Updating key `k` in place leaves every other key's value alone. -/
lemma mapGet_update_of_ne (m : List (String × ℕ)) (k : String) (v : ℕ)
    (n : String) (h : n ≠ k) :
    mapGet (m.map (fun e => if e.1 = k then (k, v) else e)) n =
      mapGet m n := by
  induction m with
  | nil => rfl
  | cons x rest ih =>
    rw [List.map_cons]
    rcases eq_or_ne x.1 k with hx | hx
    · rw [if_pos hx, mapGet_cons, mapGet_cons, ih]
      have hkn : ¬((k, v).1 = n) := fun hkn => h hkn.symm
      have hxn : ¬(x.1 = n) := fun hxn => h (hx.symm.trans hxn).symm
      rw [if_neg hkn, if_neg hxn]
    · rw [if_neg hx, mapGet_cons, mapGet_cons, ih]

/-- Appending a fresh `(k, v)` entry makes `k` read back `v` when `k`
was absent. -/
lemma mapGet_append_of_absent (m : List (String × ℕ)) (k : String)
    (v : ℕ) (h : ∀ e ∈ m, e.1 ≠ k) :
    mapGet (m ++ [(k, v)]) k = v := by
  induction m with
  | nil => rw [List.nil_append, mapGet_cons, if_pos rfl]
  | cons x rest ih =>
    rw [List.cons_append, mapGet_cons,
      if_neg (h x (List.mem_cons_self x rest))]
    exact ih fun e he => h e (List.mem_cons_of_mem x he)

/-- Appending a `(k, v)` entry leaves every other key's value alone. -/
lemma mapGet_append_of_ne (m : List (String × ℕ)) (k : String) (v : ℕ)
    (n : String) (h : n ≠ k) :
    mapGet (m ++ [(k, v)]) n = mapGet m n := by
  induction m with
  | nil =>
    rw [List.nil_append, mapGet_cons, if_neg fun hkn => h hkn.symm]
  | cons x rest ih => rw [List.cons_append, mapGet_cons, mapGet_cons, ih]

/-- Awarding points adds exactly that many points to the awarded name. -/
lemma mapGet_updatePlayerScore_self (m : List (String × ℕ)) (k : String)
    (p : ℕ) :
    mapGet (updatePlayerScore m k p) k = mapGet m k + p := by
  unfold updatePlayerScore mapSet
  split
  · rename_i hany
    rw [List.any_eq_true] at hany
    obtain ⟨e, hem, hek⟩ := hany
    exact mapGet_update_of_mem m k _ ⟨e, hem, by simpa using hek⟩
  · rename_i hany
    rw [List.any_eq_true] at hany
    push_neg at hany
    exact mapGet_append_of_absent m k _ fun e he => by
      simpa using hany e he

/-- Awarding points to one name leaves every other name's score alone. -/
lemma mapGet_updatePlayerScore_ne (m : List (String × ℕ)) (k : String)
    (p : ℕ) (n : String) (h : n ≠ k) :
    mapGet (updatePlayerScore m k p) n = mapGet m n := by
  unfold updatePlayerScore mapSet
  split
  · exact mapGet_update_of_ne m k _ n h
  · exact mapGet_append_of_ne m k _ n h

/-! ## C4: effects of an elimination -/

/-- C4.  Whenever a contact resolves to an elimination
`some (winner, loser)`, exactly these effects occur: the winner's score
entry grows by exactly 1 while every other name's score is unchanged,
the loser is removed from the active set (everyone else stays) and its
name-text resource is released, and the winner's vertical velocity is
set to the upward impulse −150. -/
theorem elimination_outcome_effects
    (p1 p2 : Player) (g : Bool) (now : ℕ) (p1' p2' : Player)
    (w l : String) (st : ArenaState)
    (hd : p1.name ≠ p2.name)
    (hres : handlePlayerCollision p1 p2 g now = (p1', p2', some (w, l)))
    (_hl : l ∈ st.active) (hnd : st.active.Nodup) :
    mapGet (applyOutcome st (some (w, l))).scores w =
      mapGet st.scores w + 1 ∧
    (∀ n, n ≠ w →
      mapGet (applyOutcome st (some (w, l))).scores n =
        mapGet st.scores n) ∧
    l ∉ (applyOutcome st (some (w, l))).active ∧
    (∀ n, n ∈ st.active → n ≠ l →
      n ∈ (applyOutcome st (some (w, l))).active) ∧
    (applyOutcome st (some (w, l))).texts = st.texts.erase l ∧
    (w = p1.name → p1'.velY = -150) ∧
    (w = p2.name → p2'.velY = -150) := by
  have hvel : (w = p1.name → p1'.velY = -150) ∧
      (w = p2.name → p2'.velY = -150) := by
    unfold handlePlayerCollision at hres
    split at hres
    · simp at hres
    · split at hres
      · simp at hres
      · split at hres
        · simp at hres
        · dsimp only at hres
          split at hres
          · split at hres
            · rename_i hmatch hwin
              simp only [Prod.mk.injEq, Option.some.injEq] at hres
              obtain ⟨hp1, hp2, hw, hlz⟩ := hres
              refine ⟨fun _ => ?_, fun hwp2 => ?_⟩
              · rw [← hp1]
              · exact absurd (hwin.symm.trans (hw.trans hwp2)) hd
            · rename_i hmatch hwin
              simp only [Prod.mk.injEq, Option.some.injEq] at hres
              obtain ⟨hp1, hp2, hw, hlz⟩ := hres
              refine ⟨fun hwp1 => ?_, fun _ => ?_⟩
              · exact absurd (hw.trans hwp1) hwin
              · rw [← hp2]
          · simp at hres
  exact ⟨mapGet_updatePlayerScore_self st.scores w 1,
    fun n hn => mapGet_updatePlayerScore_ne st.scores w 1 n hn,
    hnd.not_mem_erase,
    fun n hn hnl => (List.mem_erase_of_ne hnl).mpr hn,
    rfl, hvel.1, hvel.2⟩

/-- Witness for C4: the concrete stomp of `pA` over `pB` in the demo
arena, with every effect checked at that input. -/
theorem elimination_outcome_effects_witness :
    (pA.name ≠ pB.name ∧
     handlePlayerCollision pA pB false 1000 =
       ({ pA with lastCollision := 1000, velY := -150 },
        { pB with lastCollision := 1000 }, some ("A", "B")) ∧
     ("B" : String) ∈ stDemo.active ∧ stDemo.active.Nodup) ∧
    mapGet (applyOutcome stDemo (some ("A", "B"))).scores "A" =
      mapGet stDemo.scores "A" + 1 ∧
    mapGet (applyOutcome stDemo (some ("A", "B"))).scores "B" =
      mapGet stDemo.scores "B" ∧
    ("B" : String) ∉ (applyOutcome stDemo (some ("A", "B"))).active ∧
    ("A" : String) ∈ (applyOutcome stDemo (some ("A", "B"))).active ∧
    (applyOutcome stDemo (some ("A", "B"))).texts =
      stDemo.texts.erase "B" ∧
    ({ pA with lastCollision := 1000, velY := -150 } : Player).velY =
      -150 := by
  have hres : handlePlayerCollision pA pB false 1000 =
      ({ pA with lastCollision := 1000, velY := -150 },
       { pB with lastCollision := 1000 }, some ("A", "B")) := by
    norm_num [handlePlayerCollision, determineCollisionWinner, pA, pB]
    decide
  have h := elimination_outcome_effects pA pB false 1000
    { pA with lastCollision := 1000, velY := -150 }
    { pB with lastCollision := 1000 } "A" "B" stDemo (by decide) hres
    (by decide) (by decide)
  exact ⟨⟨by decide, hres, by decide, by decide⟩, h.1, h.2.1 "B" (by decide),
    h.2.2.1, h.2.2.2.1 "A" (by decide) (by decide), h.2.2.2.2.1,
    h.2.2.2.2.2.1 (by decide)⟩

/-! ## Respawn loop lemmas -/

/-- A pick from a non-empty list is a member of that list. -/
lemma pickFrom_mem (l : List String) (idx : ℕ) (h : l ≠ []) :
    pickFrom l idx ∈ l := by
  unfold pickFrom
  have hlen : 0 < l.length := List.length_pos.mpr h
  rw [List.getD_eq_getElem l "" (Nat.mod_lt idx hlen)]
  exact List.getElem_mem _

/-- While strictly fewer agents are active than the roster holds, the
list of inactive roster names is non-empty. -/
lemma available_ne_nil (roster act : List String) (hndR : roster.Nodup)
    (hlt : act.length < roster.length) :
    roster.filter (fun n => ¬ act.contains n) ≠ [] := by
  intro hempty
  have hsub2 : roster ⊆ act := by
    intro r hr
    by_contra hra
    have hrf : r ∈ roster.filter (fun n => ¬ act.contains n) := by
      rw [List.mem_filter]
      exact ⟨hr, by simpa using hra⟩
    rw [hempty] at hrf
    cases hrf
  exact absurd (List.subperm_of_subset hndR hsub2).length_le (by omega)

/-- Unfolding of the respawn loop over one random choice. -/
lemma spawnLoop_cons (roster act : List String) (i : ℕ) (rest : List ℕ) :
    spawnLoop roster act (i :: rest) =
      spawnLoop roster (spawnRandomPlayer roster act i) rest := rfl

/-- Running the respawn loop for `idxs.length` steps, while that many
inactive roster names remain, spawns exactly one fresh inactive roster
name per step: the active list is extended by `idxs.length` distinct
roster names that were not active before. -/
lemma spawnLoop_spec (roster : List String) (hndR : roster.Nodup) :
    ∀ (idxs : List ℕ) (act : List String), act.Nodup →
      (∀ a ∈ act, a ∈ roster) →
      idxs.length ≤ roster.length - act.length →
      ∃ newNames, spawnLoop roster act idxs = act ++ newNames ∧
        newNames.length = idxs.length ∧
        (act ++ newNames).Nodup ∧
        (∀ a ∈ act ++ newNames, a ∈ roster) ∧
        ∀ x ∈ newNames, x ∈ roster ∧ x ∉ act := by
  intro idxs
  induction idxs with
  | nil =>
    intro act hnd hsub _
    exact ⟨[], by simp [spawnLoop], by simp, by simpa, by simpa, by simp⟩
  | cons i rest ih =>
    intro act hnd hsub hle
    have hlt : act.length < roster.length := by
      simp only [List.length_cons] at hle
      omega
    have hne := available_ne_nil roster act hndR hlt
    have hxmem : pickFrom (roster.filter (fun n => ¬ act.contains n)) i ∈
        roster.filter (fun n => ¬ act.contains n) :=
      pickFrom_mem _ i hne
    rw [List.mem_filter] at hxmem
    have hxr := hxmem.1
    have hxa : pickFrom (roster.filter (fun n => ¬ act.contains n)) i ∉
        act := by simpa using hxmem.2
    have hstep : spawnLoop roster act (i :: rest) = spawnLoop roster
        (act ++ [pickFrom (roster.filter (fun n => ¬ act.contains n)) i])
        rest := by
      rw [spawnLoop_cons]
      unfold spawnRandomPlayer
      rw [if_neg (by simpa [List.isEmpty_iff] using hne)]
    have hnd' : (act ++
        [pickFrom (roster.filter (fun n => ¬ act.contains n)) i]).Nodup :=
      by
      rw [List.nodup_append]
      exact ⟨hnd, List.nodup_singleton _, fun a ha hb =>
        hxa (List.mem_singleton.mp hb ▸ ha)⟩
    have hsub' : ∀ a ∈ act ++
        [pickFrom (roster.filter (fun n => ¬ act.contains n)) i],
        a ∈ roster := by
      intro a ha
      rcases List.mem_append.mp ha with h | h
      · exact hsub a h
      · rw [List.mem_singleton] at h
        subst h
        exact hxr
    have hle' : rest.length ≤ roster.length - (act ++
        [pickFrom (roster.filter (fun n => ¬ act.contains n)) i]).length :=
      by
      have h1 : (act ++
          [pickFrom (roster.filter (fun n => ¬ act.contains n)) i]).length =
          act.length + 1 := by simp
      have h2 : (i :: rest).length = rest.length + 1 := rfl
      rw [h1]
      rw [h2] at hle
      omega
    obtain ⟨new, heq, hlen, hnodup, hsubr, hprop⟩ := ih _ hnd' hsub' hle'
    refine ⟨pickFrom (roster.filter (fun n => ¬ act.contains n)) i :: new,
      ?_, by simp [hlen], ?_, ?_, ?_⟩
    · rw [hstep, heq, List.append_assoc, List.singleton_append]
    · rw [show act ++ pickFrom (roster.filter
          (fun n => ¬ act.contains n)) i :: new = (act ++
          [pickFrom (roster.filter (fun n => ¬ act.contains n)) i]) ++
          new by simp]
      exact hnodup
    · intro a ha
      apply hsubr
      rw [List.append_assoc, List.singleton_append]
      exact ha
    · intro y hy
      rcases List.mem_cons.mp hy with rfl | hy'
      · exact ⟨hxr, hxa⟩
      · refine ⟨(hprop y hy').1, fun hya => (hprop y hy').2 ?_⟩
        exact List.mem_append.mpr (Or.inl hya)

/-! ## C6: the respawn protocol -/

/-- C6.  A respawn fires only when a winner has been announced and at
least 3000 ms have elapsed since the announcement
(`shouldRespawnAfterWinner` is true exactly then), and its count is
`rosterSize - activeCount`; running the spawn loop that many times
spawns exactly `rosterSize - activeCount` agents, each carrying a
distinct roster name that was not active, refilling the roster. -/
theorem respawn_protocol
    (active total : ℕ) (w : Bool) (tAnn now : ℕ)
    (roster activeNames : List String) (idxs : List ℕ)
    (hndR : roster.Nodup) (hndA : activeNames.Nodup)
    (hsub : ∀ a ∈ activeNames, a ∈ roster)
    (hlen : idxs.length = roster.length - activeNames.length) :
    (shouldRespawnAfterWinner w tAnn now = true ↔
      w = true ∧ 3000 ≤ now - tAnn) ∧
    (∀ n, checkAndRespawnPlayers active total w tAnn now =
        RespawnAction.respawn n →
      w = true ∧ 3000 ≤ now - tAnn ∧ n = total - active) ∧
    ∃ newNames, spawnLoop roster activeNames idxs =
        activeNames ++ newNames ∧
      newNames.length = roster.length - activeNames.length ∧
      (activeNames ++ newNames).Nodup ∧
      (spawnLoop roster activeNames idxs).length = roster.length ∧
      ∀ x ∈ newNames, x ∈ roster ∧ x ∉ activeNames := by
  have hiff : shouldRespawnAfterWinner w tAnn now = true ↔
      w = true ∧ 3000 ≤ now - tAnn := by
    cases w <;> simp [shouldRespawnAfterWinner]
  refine ⟨hiff, ?_, ?_⟩
  · intro n h
    unfold checkAndRespawnPlayers at h
    split at h
    · split at h
      · simp at h
      · split at h
        · rename_i hsr
          obtain ⟨hw', ht⟩ := hiff.mp hsr
          refine ⟨hw', ht, ?_⟩
          cases h
          rfl
        · simp at h
    · split at h <;> simp at h
  · obtain ⟨new, heq, hl2, hnodup, _, hprop⟩ :=
      spawnLoop_spec roster hndR idxs activeNames hndA hsub
        (le_of_eq hlen)
    refine ⟨new, heq, by rw [hl2, hlen], hnodup, ?_, hprop⟩
    rw [heq, List.length_append, hl2, hlen]
    have hle : activeNames.length ≤ roster.length :=
      (List.subperm_of_subset hndA hsub).length_le
    omega

/-- Witness for C6: a three-name roster with one survivor, the winner
announced exactly 3000 ms ago, and a two-step spawn loop. -/
theorem respawn_protocol_witness :
    ((["A", "B", "C"] : List String).Nodup ∧
     (["A"] : List String).Nodup ∧
     (∀ a ∈ (["A"] : List String), a ∈ (["A", "B", "C"] : List String)) ∧
     ([0, 0] : List ℕ).length =
       (["A", "B", "C"] : List String).length -
         (["A"] : List String).length) ∧
    (shouldRespawnAfterWinner true 0 3000 = true ↔
      true = true ∧ 3000 ≤ 3000 - 0) ∧
    (∀ n, checkAndRespawnPlayers 1 3 true 0 3000 =
        RespawnAction.respawn n →
      true = true ∧ 3000 ≤ 3000 - 0 ∧ n = 3 - 1) ∧
    ∃ newNames, spawnLoop ["A", "B", "C"] ["A"] [0, 0] =
        ["A"] ++ newNames ∧
      newNames.length =
        (["A", "B", "C"] : List String).length -
          (["A"] : List String).length ∧
      ((["A"] : List String) ++ newNames).Nodup ∧
      (spawnLoop ["A", "B", "C"] ["A"] [0, 0]).length =
        (["A", "B", "C"] : List String).length ∧
      ∀ x ∈ newNames, x ∈ (["A", "B", "C"] : List String) ∧
        x ∉ (["A"] : List String) :=
  ⟨⟨by decide, by decide, by decide, by decide⟩,
   respawn_protocol 1 3 true 0 3000 ["A", "B", "C"] ["A"] [0, 0]
     (by decide) (by decide) (by decide) (by decide)⟩

/-! ## Speed-manager lemmas -/

/-- Peeling the last tick off a speed run. -/
lemma runSpeed_append (s : SpeedState) (l : List (ℕ × ℕ)) (x : ℕ × ℕ) :
    runSpeed s (l ++ [x]) =
      calculateSpeedMultiplier (runSpeed s l).2 x.1 x.2 := by
  unfold runSpeed
  rw [List.foldl_append]
  rfl

/-- With at least 8 active players, one call returns multiplier 1 and
the reset state, for every reachable state (a state is reachable only
when `speedBoostLogged = false` implies it is the initial state). -/
lemma calcSpeed_of_ge8 (s : SpeedState) (a now : ℕ) (ha : 8 ≤ a)
    (hinv : s.speedBoostLogged = false → s = SpeedState.init) :
    calculateSpeedMultiplier s a now = (1, SpeedState.init) := by
  have hna : ¬ a < 8 := by omega
  cases hlog : s.speedBoostLogged with
  | false =>
    rw [hinv hlog]
    simp [calculateSpeedMultiplier, SpeedState.init, hna]
  | true =>
    simp [calculateSpeedMultiplier, SpeedState.init, hna, hlog, ha]

/-- A boosted tick past the 10-second mark with fewer than 8 increments
banked: add an increment and restart the 10-second timer. -/
lemma calcSpeed_boost_step (s : SpeedState) (b now : ℕ) (hb : b < 8)
    (hlog : s.speedBoostLogged = true)
    (hcnt : s.progressiveBoostCount < 8)
    (htime : 10000 ≤ now - s.lastProgressiveBoostTime) :
    calculateSpeedMultiplier s b now =
      (3 / 2 * (s.progressiveSpeedMultiplier + 1 / 4),
       { s with
         progressiveSpeedMultiplier := s.progressiveSpeedMultiplier + 1 / 4,
         lastProgressiveBoostTime := now,
         progressiveBoostCount := s.progressiveBoostCount + 1 }) := by
  have hb8 : ¬ 8 ≤ b := by omega
  simp [calculateSpeedMultiplier, hb, hb8, hlog, hcnt, htime]

/-- A boosted tick that is either capped or before the 10-second mark:
no state change. -/
lemma calcSpeed_boost_stay (s : SpeedState) (b now : ℕ) (hb : b < 8)
    (hlog : s.speedBoostLogged = true)
    (hcond : ¬(s.progressiveBoostCount < 8 ∧
      10000 ≤ now - s.lastProgressiveBoostTime)) :
    calculateSpeedMultiplier s b now =
      (3 / 2 * s.progressiveSpeedMultiplier, s) := by
  have hb8 : ¬ 8 ≤ b := by omega
  simp [calculateSpeedMultiplier, hb, hb8, hlog, hcond]

/-- Ticking exactly at every multiple of 10000 ms from a fresh state
with a low player count yields the closed-form progressive state. -/
lemma runSpeed_boundary (b : ℕ) (hb : b < 8) (K : ℕ) :
    runSpeed SpeedState.init
        ((List.range (K + 1)).map (fun k => (b, 10000 * k))) =
      (3 / 2 * (1 + 1 / 4 * ((min 8 K : ℕ) : ℚ)),
       { speedBoostLogged := true,
         progressiveSpeedMultiplier := 1 + 1 / 4 * ((min 8 K : ℕ) : ℚ),
         lastProgressiveBoostTime := 10000 * min 8 K,
         progressiveBoostCount := min 8 K }) := by
  induction K with
  | zero =>
    have h0 : runSpeed SpeedState.init
        ((List.range 1).map (fun k => (b, 10000 * k))) =
        calculateSpeedMultiplier SpeedState.init b 0 := rfl
    rw [h0, Nat.min_zero]
    norm_num [calculateSpeedMultiplier, SpeedState.init, hb]
  | succ K ih =>
    rw [List.range_succ, List.map_append, List.map_singleton,
      runSpeed_append, ih]
    dsimp only
    rcases Nat.lt_or_ge K 8 with hK | hK
    · have hmin : min 8 K = K := Nat.min_eq_right (Nat.le_of_lt hK)
      have hmin' : min 8 (K + 1) = K + 1 := Nat.min_eq_right hK
      rw [hmin, hmin']
      rw [calcSpeed_boost_step _ b _ hb rfl hK
        (show 10000 ≤ 10000 * (K + 1) - 10000 * K by omega)]
      simp only [Prod.mk.injEq, SpeedState.mk.injEq, Nat.cast_add,
        Nat.cast_one]
      exact ⟨by ring, trivial, by ring, trivial, trivial⟩
    · have hmin : min 8 K = 8 := Nat.min_eq_left hK
      have hmin' : min 8 (K + 1) = 8 := Nat.min_eq_left (by omega)
      rw [hmin, hmin']
      rw [calcSpeed_boost_stay _ b _ hb rfl
        (fun h => absurd h.1 (show ¬(8 : ℕ) < 8 by omega))]

/-! ## C7: the speed multiplier (corrected) -/

/-- C7 counterexample.  A tick schedule whose gaps are all under 10
seconds (ticks at 0, 9999, 19998 and 29997 ms with 5 active players
throughout) on which the claimed closed form fails: the code returns
multiplier 15/8, but 1.5 × (1 + 0.25 × min(8, floor(29997/10000))) is
9/4 — the 10-second timer restarts at the tick that observes it, so the
increments lag the wall clock. -/
theorem speed_formula_counterexample :
    (5 : ℕ) < 8 ∧
    9999 - 0 ≤ 10000 ∧ 19998 - 9999 ≤ 10000 ∧
      29997 - 19998 ≤ 10000 ∧
    (runSpeed SpeedState.init
        [(5, 0), (5, 9999), (5, 19998), (5, 29997)]).1 = 15 / 8 ∧
    (15 / 8 : ℚ) ≠
      3 / 2 * (1 + 1 / 4 * ((min 8 ((29997 - 0) / 10000) : ℕ) : ℚ)) := by
  refine ⟨by norm_num, by norm_num, by norm_num, by norm_num, ?_, ?_⟩
  · norm_num [runSpeed, calculateSpeedMultiplier, SpeedState.init]
  · norm_num

/-- C7 (amended).  Whenever at least 8 players are active, the returned
multiplier is exactly 1 and the progressive state is reset, from every
reachable state; and when fewer than 8 players are active and ticks
occur exactly at each elapsed multiple of 10000 ms since the boost
started, the multiplier at elapsed time t = 10000·K equals
1.5 × (1 + 0.25 × min(8, floor(t/10000))), hence is capped at 4.5.
(As stated — with ticks merely at least every 10 seconds — the formula
fails, because each 10-second timer restarts at the tick observing it.) -/
theorem speed_multiplier_amended
    (s : SpeedState) (a now : ℕ)
    (hinv : s.speedBoostLogged = false → s = SpeedState.init)
    (ha : 8 ≤ a) (b K : ℕ) (hb : b < 8) :
    ((calculateSpeedMultiplier s a now).1 = 1 ∧
     (calculateSpeedMultiplier s a now).2 = SpeedState.init) ∧
    (runSpeed SpeedState.init
        ((List.range (K + 1)).map (fun k => (b, 10000 * k)))).1 =
      3 / 2 * (1 + 1 / 4 * ((min 8 ((10000 * K) / 10000) : ℕ) : ℚ)) := by
  constructor
  · rw [calcSpeed_of_ge8 s a now ha hinv]
    exact ⟨rfl, rfl⟩
  · rw [runSpeed_boundary b hb K,
      show 10000 * K / 10000 = K from
        Nat.mul_div_cancel_left K (by norm_num)]

/-- Witness for C7 (amended): a reset from the pristine state at 9
active players, and the 2-boundary schedule at 5 active players. -/
theorem speed_multiplier_amended_witness :
    ((8 ≤ 9) ∧ (5 < 8)) ∧
    ((calculateSpeedMultiplier SpeedState.init 9 5).1 = 1 ∧
     (calculateSpeedMultiplier SpeedState.init 9 5).2 = SpeedState.init) ∧
    (runSpeed SpeedState.init
        ((List.range (2 + 1)).map (fun k => (5, 10000 * k)))).1 =
      3 / 2 * (1 + 1 / 4 * ((min 8 ((10000 * 2) / 10000) : ℕ) : ℚ)) :=
  ⟨⟨by decide, by decide⟩,
   speed_multiplier_amended SpeedState.init 9 5 (fun _ => rfl) (by decide)
     5 2 (by decide)⟩

/-! ## Roster lemmas -/

/-- The first-seen dedup of the empty list. -/
lemma firstSeenDedup_nil : firstSeenDedup [] = [] := by
  rw [firstSeenDedup]

lemma firstSeenDedup_cons (s : String) (rest : List String) :
    firstSeenDedup (s :: rest) =
      s :: firstSeenDedup (rest.filter (fun x => x ≠ s)) := by
  rw [firstSeenDedup]

lemma mem_firstSeenDedup (l : List String) (a : String) :
    a ∈ firstSeenDedup l ↔ a ∈ l := by
  induction l using firstSeenDedup.induct with
  | case1 => rw [firstSeenDedup_nil]
  | case2 s rest ih =>
    rw [firstSeenDedup_cons]
    constructor
    · intro h
      rcases List.mem_cons.mp h with rfl | h'
      · exact List.mem_cons_self _ _
      · exact List.mem_cons_of_mem _ (List.mem_of_mem_filter (ih.mp h'))
    · intro h
      rcases List.mem_cons.mp h with rfl | h'
      · exact List.mem_cons_self _ _
      · by_cases has : a = s
        · subst has; exact List.mem_cons_self _ _
        · exact List.mem_cons_of_mem _ (ih.mpr
            (List.mem_filter.mpr ⟨h', by simpa using has⟩))
lemma nodup_firstSeenDedup (l : List String) : (firstSeenDedup l).Nodup := by
  induction l using firstSeenDedup.induct with
  | case1 => rw [firstSeenDedup_nil]; exact List.nodup_nil
  | case2 s rest ih =>
    rw [firstSeenDedup_cons]
    refine List.nodup_cons.mpr ⟨fun hmem => ?_, ih⟩
    have := List.mem_filter.mp ((mem_firstSeenDedup _ _).mp hmem)
    simp at this

lemma setAdd_of_mem {l : List String} {s : String} (h : s ∈ l) :
    setAdd l s = l := by
  unfold setAdd
  rw [if_pos h]

lemma setAdd_of_not_mem {l : List String} {s : String} (h : s ∉ l) :
    setAdd l s = l ++ [s] := by
  unfold setAdd
  rw [if_neg h]

lemma foldl_setAdd_eq (l : List String) :
    ∀ acc : List String,
      List.foldl (fun acc name =>
          let cleanName := name.trim
          if cleanName = "" then acc else setAdd acc cleanName) acc l =
        acc ++ firstSeenDedup ((l.map String.trim).filter
          (fun s => ¬(s = "" ∨ s ∈ acc))) := by
  induction l with
  | nil =>
    intro acc
    simp [firstSeenDedup_nil]
  | cons name rest ih =>
    intro acc
    rw [List.foldl_cons, List.map_cons, List.filter_cons]
    by_cases hc : name.trim = ""
    · rw [if_neg (show ¬(decide ¬(name.trim = "" ∨ name.trim ∈ acc)) = true by simp [hc])]
      dsimp only
      rw [if_pos hc]
      exact ih acc
    · by_cases hm : name.trim ∈ acc
      · rw [if_neg (show ¬(decide ¬(name.trim = "" ∨ name.trim ∈ acc)) = true by simp [hm])]
        dsimp only
        rw [if_neg hc, setAdd_of_mem hm]
        exact ih acc
      · rw [if_pos (show (decide ¬(name.trim = "" ∨ name.trim ∈ acc)) = true by simp [hc, hm])]
        dsimp only
        rw [if_neg hc, setAdd_of_not_mem hm]
        rw [ih (acc ++ [name.trim])]
        rw [firstSeenDedup_cons]
        rw [List.append_assoc, List.singleton_append]
        congr 2
        rw [List.filter_filter]
        apply congrArg
        apply List.filter_congr
        intro a _
        simp only [decide_eq_true_eq, List.mem_append, List.mem_singleton]
        by_cases ha : a = name.trim <;> by_cases ha2 : a = "" <;>
          by_cases ha3 : a ∈ acc <;> simp [ha, ha2, ha3]

/-! ## C8: roster resolution -/

/-- C8.  For every fetched-name list — empty, with duplicates, with the
fallback name itself, or with blank entries — the resolved roster starts
with the fallback name `"ElodineCodes"`, which appears exactly once,
followed by every distinct non-empty trimmed fetched name exactly once
in first-seen order; the result has length at least 1, and the function
is total. -/
theorem roster_resolution_correct (youtubeNames : List String) :
    getPlayerNames youtubeNames =
      "ElodineCodes" :: firstSeenDedup (cleanFetchedNames youtubeNames) ∧
    (getPlayerNames youtubeNames).Nodup ∧
    (getPlayerNames youtubeNames).count "ElodineCodes" = 1 ∧
    1 ≤ (getPlayerNames youtubeNames).length ∧
    ∀ s, s ∈ getPlayerNames youtubeNames ↔
      s = "ElodineCodes" ∨
        (s ∈ youtubeNames.map String.trim ∧ s ≠ "") := by
  have h1 : getPlayerNames youtubeNames =
      "ElodineCodes" :: firstSeenDedup (cleanFetchedNames youtubeNames) := by
    unfold getPlayerNames cleanFetchedNames
    rw [foldl_setAdd_eq youtubeNames ["ElodineCodes"]]
    rw [List.singleton_append]
    congr 2
    apply List.filter_congr
    intro a _
    rw [decide_eq_decide]
    simp [not_or]
  have hEnotmem : "ElodineCodes" ∉
      firstSeenDedup (cleanFetchedNames youtubeNames) := by
    intro hmem
    have := List.mem_filter.mp ((mem_firstSeenDedup _ _).mp hmem)
    simp at this
  refine ⟨h1, ?_, ?_, ?_, ?_⟩
  · rw [h1]
    exact List.nodup_cons.mpr ⟨hEnotmem, nodup_firstSeenDedup _⟩
  · rw [h1, List.count_cons_self, List.count_eq_zero.mpr hEnotmem]
  · rw [h1]
    simp
  · intro s
    rw [h1]
    by_cases hse : s = "ElodineCodes"
    · simp [hse]
    · simp only [List.mem_cons, hse, false_or, mem_firstSeenDedup,
        cleanFetchedNames, List.mem_filter]
      simp [hse]

/-! ## C9: initial spawn takes the first twelve roster names -/

/-- C9.  The initial round spawns exactly `min(rosterSize, 12)` agents:
the first twelve roster names in roster order; names beyond the twelfth
enter play only through later respawns. -/
theorem initial_spawn_takes_first_twelve (availableNames : List String) :
    createPlayers availableNames = availableNames.take 12 ∧
    (createPlayers availableNames).length =
      min availableNames.length 12 := by
  have h1 : createPlayers availableNames = availableNames.take 12 := by
    apply List.ext_getElem
    · simp [createPlayers]
      omega
    · intro i hi1 hi2
      simp only [createPlayers, List.getElem_map, List.getElem_range]
      rw [List.getElem_take]
      apply List.getD_eq_getElem
  refine ⟨h1, ?_⟩
  rw [h1, List.length_take, Nat.min_comm]

end CommentersFight
